import Mathlib

/-
Verification of the order-placement utility: the OrderRequest wire-parameter
conversion, the order-placement client, and the CLI dispatcher.

Python dictionaries are modelled as association lists of (String, Value)
pairs.  Assignment d[k] = v replaces the value in place when the key is
present and appends the pair otherwise; d.update(e) folds that assignment
over the entries of e; d.pop(k, None) removes the entry for k when present.
Numeric parameter values are carried as rationals: the program never
computes with them, it only passes them through.
-/

namespace BinanceBot

/-- str.upper(): uppercase every character (the symbols, sides and order
types this program handles are ASCII). -/
def strUpper (s : String) : String :=
  String.mk (s.data.map Char.toUpper)

/-- A wire parameter value: string, number, or boolean. -/
inductive Value where
  | str (s : String)
  | num (q : Rat)
  | bool (b : Bool)
deriving DecidableEq, Repr

/-- A Python dict with string keys, as an association list. -/
abbrev Dict := List (String × Value)

/-- Lookup d[k]: the value at the first occurrence of key k. -/
def dictGet? : Dict → String → Option Value
  | [], _ => none
  | (k', v) :: rest, k => if k' = k then some v else dictGet? rest k

/-- Key-membership test (k in d). -/
def dictContains (d : Dict) (k : String) : Bool :=
  (dictGet? d k).isSome

/-- Assignment d[k] = v: replace in place when k is present, append otherwise. -/
def dictInsert : Dict → String → Value → Dict
  | [], k, v => [(k, v)]
  | (k', v') :: rest, k, v =>
      if k' = k then (k, v) :: rest else (k', v') :: dictInsert rest k v

/-- d.update(e): assign every entry of e into d, left to right. -/
def dictUpdate (d : Dict) (e : Dict) : Dict :=
  e.foldl (fun acc p => dictInsert acc p.1 p.2) d

/-- d.pop(k, None): drop the entry for key k (dicts hold it at most once). -/
def dictPop : Dict → String → Dict
  | [], _ => []
  | (k', v) :: rest, k => if k' = k then rest else (k', v) :: dictPop rest k

/-- The keys of a dict, in order. -/
def dictKeys (d : Dict) : List String := d.map Prod.fst

/-- The parameters required to place a futures order (dataclass OrderRequest). -/
structure OrderRequest where
  symbol : String
  side : String
  order_type : String
  quantity : Rat
  price : Option Rat := none
  time_in_force : String := "GTC"
  stop_price : Option Rat := none
  reduce_only : Option Bool := none
  extra_params : Dict := []
deriving DecidableEq, Repr

/-- The params dict of to_request_params as built before the final
params.update(self.extra_params): the literal with symbol, side, type and
quantity, then the conditional assignments of price, timeInForce, stopPrice
and reduceOnly, in source order. -/
def OrderRequest.base_params (o : OrderRequest) : Dict :=
  let params : Dict :=
    [("symbol", .str (strUpper o.symbol)),
     ("side", .str (strUpper o.side)),
     ("type", .str (strUpper o.order_type)),
     ("quantity", .num o.quantity)]
  let params :=
    match o.price with
    | some p => dictInsert params "price" (.num p)
    | none => params
  let params :=
    if ["LIMIT", "STOP", "STOP_MARKET", "STOP_LIMIT"].contains (strUpper o.order_type)
    then dictInsert params "timeInForce" (.str o.time_in_force)
    else params
  let params :=
    match o.stop_price with
    | some sp => dictInsert params "stopPrice" (.num sp)
    | none => params
  match o.reduce_only with
  | some b => dictInsert params "reduceOnly" (.bool b)
  | none => params

/-- OrderRequest.to_request_params: the base params updated with extra_params. -/
def OrderRequest.to_request_params (o : OrderRequest) : Dict :=
  dictUpdate o.base_params o.extra_params

/-- BasicBot._sanitize_for_logging: copy the params and pop the signature key. -/
def sanitize_for_logging (params : Dict) : Dict :=
  dictPop params "signature"

/-- State-explicit reading of _sanitize_for_logging: dict(params) takes a
fresh copy, pop acts on that copy only; the result pairs the argument as it
stands after the call with the returned dict. -/
def sanitize_for_logging_st (params : Dict) : Dict × Dict :=
  let sanitized := params
  let sanitized := dictPop sanitized "signature"
  (params, sanitized)

/-- State-explicit reading of to_request_params: the receiver is only read,
never written; the result pairs the receiver as it stands after the call
with the returned dict. -/
def to_request_params_st (o : OrderRequest) : OrderRequest × Dict :=
  (o, o.to_request_params)

/-- The dict place_order logs before the network call (line 66 of the bot). -/
def place_order_logged (o : OrderRequest) : Dict :=
  sanitize_for_logging o.to_request_params

/-- The OrderRequest built by BasicBot.place_market_order. -/
def place_market_order_request (symbol side : String) (quantity : Rat)
    (reduce_only : Option Bool) (extra_params : Option Dict) : OrderRequest :=
  { symbol := symbol
    side := side
    order_type := "MARKET"
    quantity := quantity
    reduce_only := reduce_only
    extra_params := extra_params.getD [] }

/-- The OrderRequest built by BasicBot.place_limit_order. -/
def place_limit_order_request (symbol side : String) (quantity price : Rat)
    (time_in_force : String) (reduce_only : Option Bool)
    (extra_params : Option Dict) : OrderRequest :=
  { symbol := symbol
    side := side
    order_type := "LIMIT"
    quantity := quantity
    price := some price
    time_in_force := time_in_force
    reduce_only := reduce_only
    extra_params := extra_params.getD [] }

/-- The OrderRequest built by BasicBot.place_stop_limit_order: the order type
is STOP and workingType=CONTRACT_PRICE seeds the extra parameters, overridable
by the caller-supplied ones. -/
def place_stop_limit_order_request (symbol side : String)
    (quantity price stop_price : Rat) (time_in_force : String)
    (reduce_only : Option Bool) (extra_params : Option Dict) : OrderRequest :=
  { symbol := symbol
    side := side
    order_type := "STOP"
    quantity := quantity
    price := some price
    stop_price := some stop_price
    time_in_force := time_in_force
    reduce_only := reduce_only
    extra_params := dictUpdate [("workingType", .str "CONTRACT_PRICE")] (extra_params.getD []) }

/-- The order types accepted by the CLI --type flag (argparse choices). -/
inductive CliOrderType where
  | MARKET
  | LIMIT
  | STOP_LIMIT
deriving DecidableEq, Repr

/-- The argparse namespace after a successful parse of the CLI flags. -/
structure Args where
  symbol : String
  side : String
  order_type : CliOrderType
  quantity : Rat
  price : Option Rat
  stop_price : Option Rat
  time_in_force : String
  reduce_only : Bool
deriving DecidableEq, Repr

/-- Outcome of execute_order up to the dispatch call: either the ValueError
raised by the cross-field validation, or the OrderRequest the dispatched
convenience method hands to place_order. -/
inductive ExecResult where
  | valueError (msg : String)
  | placed (o : OrderRequest)
deriving DecidableEq, Repr

/-- execute_order: build the kwargs (reduce_only only when the flag is set),
validate the price fields required by the chosen type, dispatch to the
convenience method for that type. -/
def execute_order (a : Args) : ExecResult :=
  let reduce_only : Option Bool := if a.reduce_only then some true else none
  match a.order_type with
  | .MARKET =>
      .placed (place_market_order_request a.symbol a.side a.quantity reduce_only none)
  | .LIMIT =>
      match a.price with
      | none => .valueError "--price is required for LIMIT orders"
      | some p =>
          .placed (place_limit_order_request a.symbol a.side a.quantity p
            a.time_in_force reduce_only none)
  | .STOP_LIMIT =>
      match a.price, a.stop_price with
      | some p, some sp =>
          .placed (place_stop_limit_order_request a.symbol a.side a.quantity p sp
            a.time_in_force reduce_only none)
      | _, _ => .valueError "--price and --stop-price are required for STOP_LIMIT orders"

/-- The exceptions main distinguishes: the two Binance exception classes,
ValueError, and any other exception. -/
inductive Exc where
  | binanceAPI (msg : String)
  | binanceOrder (msg : String)
  | valueError (msg : String)
  | other (msg : String)
deriving DecidableEq, Repr

/-- main after a successful parse: run execute_order, map each exception
class to its exit code.  The returned list records every
futures_create_order call issued, with the wire params passed to it. -/
def run_main (a : Args) (client : Dict → Except Exc Dict) : Nat × List Dict :=
  match execute_order a with
  | .valueError _ => (2, [])
  | .placed r =>
      let wire := r.to_request_params
      match client wire with
      | .ok _ => (0, [wire])
      | .error (.binanceAPI _) => (1, [wire])
      | .error (.binanceOrder _) => (1, [wire])
      | .error (.valueError _) => (2, [wire])
      | .error (.other _) => (3, [wire])

/- Lemmas about the dict operations. -/

theorem dictGet?_insert (d : Dict) (k k' : String) (v : Value) :
    dictGet? (dictInsert d k v) k' = if k = k' then some v else dictGet? d k' := by
  induction d with
  | nil => simp [dictInsert, dictGet?]
  | cons p rest ih =>
    obtain ⟨k0, v0⟩ := p
    by_cases h0 : k0 = k
    · subst h0
      by_cases h1 : k0 = k'
      · subst h1; simp [dictInsert, dictGet?]
      · simp [dictInsert, dictGet?, h1]
    · by_cases h1 : k0 = k'
      · subst h1
        have h2 : k ≠ k0 := fun h => h0 h.symm
        simp [dictInsert, dictGet?, h0, h2]
      · simp [dictInsert, dictGet?, h0, h1, ih]

theorem dictGet?_insert_self (d : Dict) (k : String) (v : Value) :
    dictGet? (dictInsert d k v) k = some v := by
  simp [dictGet?_insert]

theorem dictGet?_insert_ne (d : Dict) {k k' : String} (v : Value) (h : k ≠ k') :
    dictGet? (dictInsert d k v) k' = dictGet? d k' := by
  simp [dictGet?_insert, h]

theorem dictUpdate_nil (d : Dict) : dictUpdate d [] = d := rfl

theorem dictUpdate_cons (d : Dict) (k : String) (v : Value) (e : Dict) :
    dictUpdate d ((k, v) :: e) = dictUpdate (dictInsert d k v) e := rfl

/-- update never removes a key that is present. -/
theorem dictContains_update_of (d e : Dict) (k : String)
    (h : dictContains d k = true) : dictContains (dictUpdate d e) k = true := by
  induction e generalizing d with
  | nil => simpa using h
  | cons p e ih =>
    obtain ⟨k0, v0⟩ := p
    rw [dictUpdate_cons]
    refine ih _ ?_
    by_cases hk : k0 = k
    · subst hk; simp [dictContains, dictGet?_insert_self]
    · simpa [dictContains, dictGet?_insert, hk] using h

/-- update leaves keys that e does not mention untouched. -/
theorem dictGet?_update_not_mem (d e : Dict) (k : String)
    (h : ∀ p ∈ e, p.1 ≠ k) : dictGet? (dictUpdate d e) k = dictGet? d k := by
  induction e generalizing d with
  | nil => rfl
  | cons p e ih =>
    obtain ⟨k0, v0⟩ := p
    rw [dictUpdate_cons, ih _ (fun q hq => h q (List.mem_cons_of_mem _ hq))]
    exact dictGet?_insert_ne d v0 (h (k0, v0) (List.mem_cons_self _ _))

/-- update d e sends every key of e to its value in e (e a genuine dict:
no duplicate keys). -/
theorem dictGet?_update_of_get? (d e : Dict) (k : String) (v : Value)
    (hnd : (dictKeys e).Nodup) (h : dictGet? e k = some v) :
    dictGet? (dictUpdate d e) k = some v := by
  induction e generalizing d with
  | nil => simp [dictGet?] at h
  | cons p e ih =>
    obtain ⟨k0, v0⟩ := p
    simp only [dictKeys, List.map_cons, List.nodup_cons] at hnd
    rw [dictUpdate_cons]
    by_cases hk : k0 = k
    · subst hk
      simp only [dictGet?, eq_self_iff_true, if_true, Option.some.injEq] at h
      subst h
      rw [dictGet?_update_not_mem]
      · exact dictGet?_insert_self d k0 v0
      · intro q hq hq1
        exact hnd.1 (hq1 ▸ List.mem_map_of_mem Prod.fst hq)
    · simp only [dictGet?, if_neg hk] at h
      have hnd2 : (dictKeys e).Nodup := hnd.2
      exact ih (dictInsert d k0 v0) hnd2 h

theorem dictGet?_eq_none_of_not_mem (d : Dict) (k : String)
    (h : k ∉ dictKeys d) : dictGet? d k = none := by
  induction d with
  | nil => rfl
  | cons p rest ih =>
    obtain ⟨k0, v0⟩ := p
    simp only [dictKeys, List.map_cons, List.mem_cons] at h
    push_neg at h
    have h1 : ¬(k0 = k) := fun hh => h.1 hh.symm
    simp only [dictGet?, if_neg h1]
    exact ih h.2

theorem mem_dictKeys_insert (d : Dict) (k a : String) (v : Value)
    (h : a ∈ dictKeys (dictInsert d k v)) : a ∈ dictKeys d ∨ a = k := by
  induction d with
  | nil => simpa [dictInsert, dictKeys] using h
  | cons p rest ih =>
    obtain ⟨k0, v0⟩ := p
    by_cases h0 : k0 = k
    · subst h0
      simp only [dictInsert, eq_self_iff_true, if_true, dictKeys, List.map_cons,
        List.mem_cons] at h
      rcases h with h | h
      · exact Or.inr h
      · exact Or.inl (List.mem_cons_of_mem _ h)
    · simp only [dictInsert, if_neg h0, dictKeys, List.map_cons, List.mem_cons] at h
      rcases h with h | h
      · exact Or.inl (h ▸ List.mem_cons_self _ _)
      · rcases ih h with h1 | h1
        · exact Or.inl (List.mem_cons_of_mem _ h1)
        · exact Or.inr h1

theorem nodup_dictKeys_insert (d : Dict) (k : String) (v : Value)
    (h : (dictKeys d).Nodup) : (dictKeys (dictInsert d k v)).Nodup := by
  induction d with
  | nil => simp [dictInsert, dictKeys]
  | cons p rest ih =>
    obtain ⟨k0, v0⟩ := p
    simp only [dictKeys, List.map_cons, List.nodup_cons] at h
    by_cases h0 : k0 = k
    · subst h0
      simp only [dictInsert, eq_self_iff_true, if_true, dictKeys, List.map_cons,
        List.nodup_cons]
      exact h
    · simp only [dictInsert, if_neg h0, dictKeys, List.map_cons, List.nodup_cons]
      refine ⟨fun hmem => ?_, ih h.2⟩
      rcases mem_dictKeys_insert rest k k0 v hmem with h1 | h1
      · exact h.1 h1
      · exact h0 h1

theorem nodup_dictKeys_update (d e : Dict)
    (h : (dictKeys d).Nodup) : (dictKeys (dictUpdate d e)).Nodup := by
  induction e generalizing d with
  | nil => exact h
  | cons p e ih =>
    obtain ⟨k0, v0⟩ := p
    rw [dictUpdate_cons]
    exact ih _ (nodup_dictKeys_insert d k0 v0 h)

theorem nodup_dictKeys_base (o : OrderRequest) : (dictKeys o.base_params).Nodup := by
  obtain ⟨sym, sd, ot, q, pr, tf, sp, ro, ex⟩ := o
  cases pr <;> cases sp <;> cases ro <;>
    simp only [OrderRequest.base_params] <;>
    split <;>
    (repeat apply nodup_dictKeys_insert) <;>
    simp only [dictKeys, List.map_cons, List.map_nil] <;>
    decide

theorem nodup_dictKeys_wire (o : OrderRequest) :
    (dictKeys o.to_request_params).Nodup :=
  nodup_dictKeys_update o.base_params o.extra_params (nodup_dictKeys_base o)

/-- pop leaves the lookups of every other key unchanged. -/
theorem dictGet?_pop_ne (d : Dict) {k k' : String} (h : k' ≠ k) :
    dictGet? (dictPop d k) k' = dictGet? d k' := by
  induction d with
  | nil => rfl
  | cons p rest ih =>
    obtain ⟨k0, v0⟩ := p
    by_cases h0 : k0 = k
    · subst h0
      have h1 : k0 ≠ k' := fun hh => h hh.symm
      simp [dictPop, dictGet?, h1]
    · simp [dictPop, dictGet?, h0, ih]

/-- On a genuine dict (no duplicate keys), pop removes the key entirely. -/
theorem dictGet?_pop_self (d : Dict) (k : String)
    (hnd : (dictKeys d).Nodup) : dictGet? (dictPop d k) k = none := by
  induction d with
  | nil => rfl
  | cons p rest ih =>
    obtain ⟨k0, v0⟩ := p
    simp only [dictKeys, List.map_cons, List.nodup_cons] at hnd
    by_cases h0 : k0 = k
    · subst h0
      simp only [dictPop, if_pos rfl]
      exact dictGet?_eq_none_of_not_mem rest k0 hnd.1
    · simp only [dictPop, if_neg h0, dictGet?, if_neg h0]
      exact ih hnd.2

/- Per-key characterization of the computed (pre-update) params. -/

theorem base_params_get_symbol (o : OrderRequest) :
    dictGet? o.base_params "symbol" = some (.str (strUpper o.symbol)) := by
  obtain ⟨sym, sd, ot, q, pr, tf, sp, ro, ex⟩ := o
  cases pr <;> cases sp <;> cases ro <;>
    simp only [OrderRequest.base_params] <;>
    split <;>
    simp [dictGet?_insert, dictGet?]

theorem base_params_get_side (o : OrderRequest) :
    dictGet? o.base_params "side" = some (.str (strUpper o.side)) := by
  obtain ⟨sym, sd, ot, q, pr, tf, sp, ro, ex⟩ := o
  cases pr <;> cases sp <;> cases ro <;>
    simp only [OrderRequest.base_params] <;>
    split <;>
    simp [dictGet?_insert, dictGet?]

theorem base_params_get_type (o : OrderRequest) :
    dictGet? o.base_params "type" = some (.str (strUpper o.order_type)) := by
  obtain ⟨sym, sd, ot, q, pr, tf, sp, ro, ex⟩ := o
  cases pr <;> cases sp <;> cases ro <;>
    simp only [OrderRequest.base_params] <;>
    split <;>
    simp [dictGet?_insert, dictGet?]

theorem base_params_get_quantity (o : OrderRequest) :
    dictGet? o.base_params "quantity" = some (.num o.quantity) := by
  obtain ⟨sym, sd, ot, q, pr, tf, sp, ro, ex⟩ := o
  cases pr <;> cases sp <;> cases ro <;>
    simp only [OrderRequest.base_params] <;>
    split <;>
    simp [dictGet?_insert, dictGet?]

theorem base_params_get_price (o : OrderRequest) :
    dictGet? o.base_params "price" = o.price.map Value.num := by
  obtain ⟨sym, sd, ot, q, pr, tf, sp, ro, ex⟩ := o
  cases pr <;> cases sp <;> cases ro <;>
    simp only [OrderRequest.base_params] <;>
    split <;>
    simp [dictGet?_insert, dictGet?]

theorem base_params_get_tif (o : OrderRequest) :
    dictGet? o.base_params "timeInForce" =
      if ["LIMIT", "STOP", "STOP_MARKET", "STOP_LIMIT"].contains (strUpper o.order_type)
      then some (.str o.time_in_force) else none := by
  obtain ⟨sym, sd, ot, q, pr, tf, sp, ro, ex⟩ := o
  cases pr <;> cases sp <;> cases ro <;>
    simp only [OrderRequest.base_params] <;>
    split <;>
    simp_all [dictGet?_insert, dictGet?]

theorem base_params_get_stop (o : OrderRequest) :
    dictGet? o.base_params "stopPrice" = o.stop_price.map Value.num := by
  obtain ⟨sym, sd, ot, q, pr, tf, sp, ro, ex⟩ := o
  cases pr <;> cases sp <;> cases ro <;>
    simp only [OrderRequest.base_params] <;>
    split <;>
    simp [dictGet?_insert, dictGet?]

theorem base_params_get_reduce (o : OrderRequest) :
    dictGet? o.base_params "reduceOnly" = o.reduce_only.map Value.bool := by
  obtain ⟨sym, sd, ot, q, pr, tf, sp, ro, ex⟩ := o
  cases pr <;> cases sp <;> cases ro <;>
    simp only [OrderRequest.base_params] <;>
    split <;>
    simp [dictGet?_insert, dictGet?]

/- Claim theorems. -/

/-- C1: a CLI invocation with type STOP_LIMIT, price 100, stop price 95,
quantity 1, any symbol and side, and the remaining flags at their parser
defaults (time in force GTC, reduce-only absent) dispatches an order whose
wire parameters are exactly symbol, side, type=STOP, quantity=1, price=100,
timeInForce=GTC, stopPrice=95, workingType=CONTRACT_PRICE, with no other
keys; in particular the type entry is the string STOP. -/
theorem C1_stop_limit_cli_wire (a : Args)
    (ht : a.order_type = .STOP_LIMIT) (hp : a.price = some 100)
    (hs : a.stop_price = some 95) (hq : a.quantity = 1)
    (htf : a.time_in_force = "GTC") (hro : a.reduce_only = false) :
    ∃ r, execute_order a = .placed r ∧
      r.to_request_params =
        [("symbol", .str (strUpper a.symbol)),
         ("side", .str (strUpper a.side)),
         ("type", .str "STOP"),
         ("quantity", .num 1),
         ("price", .num 100),
         ("timeInForce", .str "GTC"),
         ("stopPrice", .num 95),
         ("workingType", .str "CONTRACT_PRICE")] := by
  obtain ⟨sym, sd, ot, q, pr, sp, tf, ro⟩ := a
  simp only at ht hp hs hq htf hro
  subst ht; subst hp; subst hs; subst hq; subst htf; subst hro
  exact ⟨_, rfl, rfl⟩

/-- C1 witness: the theorem instantiated at symbol BTCUSDT, side BUY. -/
theorem C1_stop_limit_cli_wire_witness :
    ∃ r, execute_order ⟨"BTCUSDT", "BUY", .STOP_LIMIT, 1, some 100, some 95, "GTC", false⟩
        = .placed r ∧
      r.to_request_params =
        [("symbol", .str "BTCUSDT"),
         ("side", .str "BUY"),
         ("type", .str "STOP"),
         ("quantity", .num 1),
         ("price", .num 100),
         ("timeInForce", .str "GTC"),
         ("stopPrice", .num 95),
         ("workingType", .str "CONTRACT_PRICE")] :=
  C1_stop_limit_cli_wire ⟨"BTCUSDT", "BUY", .STOP_LIMIT, 1, some 100, some 95, "GTC", false⟩
    rfl rfl rfl rfl rfl rfl

/-- C2 counterexample: a MARKET OrderRequest whose extra_params carry a
timeInForce entry yields wire parameters that do contain timeInForce, so the
MARKET half of the claim fails once extra_params contents are quantified. -/
theorem C2_market_extra_tif_counterexample :
    (OrderRequest.order_type
        ⟨"BTCUSDT", "BUY", "MARKET", 1, none, "GTC", none, none,
          [("timeInForce", .str "GTC")]⟩ = "MARKET") ∧
    dictContains
      (OrderRequest.to_request_params
        ⟨"BTCUSDT", "BUY", "MARKET", 1, none, "GTC", none, none,
          [("timeInForce", .str "GTC")]⟩) "timeInForce" = true :=
  ⟨rfl, by decide⟩

/-- C2 (amended): the wire parameters contain timeInForce whenever the
uppercased order type is LIMIT, STOP, STOP_MARKET or STOP_LIMIT; for MARKET
they do not contain it provided extra_params does not itself carry a
timeInForce key. -/
theorem C2_timeInForce_amended (o : OrderRequest) :
    (["LIMIT", "STOP", "STOP_MARKET", "STOP_LIMIT"].contains (strUpper o.order_type) = true →
      dictContains o.to_request_params "timeInForce" = true) ∧
    (strUpper o.order_type = "MARKET" →
      (∀ p ∈ o.extra_params, p.1 ≠ "timeInForce") →
      dictContains o.to_request_params "timeInForce" = false) := by
  constructor
  · intro h
    apply dictContains_update_of
    unfold dictContains
    rw [base_params_get_tif, if_pos h]
    rfl
  · intro hm hnot
    have h := dictGet?_update_not_mem o.base_params o.extra_params "timeInForce" hnot
    simp only [dictContains, OrderRequest.to_request_params, h, base_params_get_tif, hm]
    simp

/-- C2 witness: a LIMIT request carries timeInForce, a plain MARKET request
does not. -/
theorem C2_timeInForce_amended_witness :
    dictContains
      (OrderRequest.to_request_params
        ⟨"BTCUSDT", "BUY", "LIMIT", 1, some 100, "GTC", none, none, []⟩)
      "timeInForce" = true ∧
    dictContains
      (OrderRequest.to_request_params
        ⟨"BTCUSDT", "BUY", "MARKET", 1, none, "GTC", none, none, []⟩)
      "timeInForce" = false :=
  ⟨(C2_timeInForce_amended _).1 (by decide),
   (C2_timeInForce_amended _).2 (by decide) (by decide)⟩

/-- C3 counterexample: with reduce_only left unset, an extra_params entry
reduceOnly=true still puts reduceOnly into the wire parameters, so the
only-if half of the claim fails once extra_params contents are quantified. -/
theorem C3_extra_reduceOnly_counterexample :
    (OrderRequest.reduce_only
        ⟨"BTCUSDT", "BUY", "MARKET", 1, none, "GTC", none, none,
          [("reduceOnly", .bool true)]⟩ = none) ∧
    dictContains
      (OrderRequest.to_request_params
        ⟨"BTCUSDT", "BUY", "MARKET", 1, none, "GTC", none, none,
          [("reduceOnly", .bool true)]⟩) "reduceOnly" = true :=
  ⟨rfl, by decide⟩

/-- C3 (amended): the wire parameters contain reduceOnly whenever the
reduce_only field is explicitly set (to true or to false); when the field is
unset, reduceOnly is absent provided extra_params does not itself carry a
reduceOnly key. -/
theorem C3_reduceOnly_amended (o : OrderRequest) :
    (∀ b, o.reduce_only = some b →
      dictContains o.to_request_params "reduceOnly" = true) ∧
    (o.reduce_only = none →
      (∀ p ∈ o.extra_params, p.1 ≠ "reduceOnly") →
      dictContains o.to_request_params "reduceOnly" = false) := by
  constructor
  · intro b hb
    apply dictContains_update_of
    simp [dictContains, base_params_get_reduce, hb]
  · intro hn hnot
    have h := dictGet?_update_not_mem o.base_params o.extra_params "reduceOnly" hnot
    simp only [dictContains, OrderRequest.to_request_params, h, base_params_get_reduce, hn]
    simp

/-- C3 witness: reduce_only=false still sends reduceOnly, an unset field
with empty extra_params does not. -/
theorem C3_reduceOnly_amended_witness :
    dictContains
      (OrderRequest.to_request_params
        ⟨"BTCUSDT", "BUY", "MARKET", 1, none, "GTC", none, some false, []⟩)
      "reduceOnly" = true ∧
    dictContains
      (OrderRequest.to_request_params
        ⟨"BTCUSDT", "BUY", "MARKET", 1, none, "GTC", none, none, []⟩)
      "reduceOnly" = false :=
  ⟨(C3_reduceOnly_amended _).1 false rfl,
   (C3_reduceOnly_amended _).2 rfl (by decide)⟩

/-- C4: every key of extra_params (a dict, hence without duplicate keys)
ends up in the wire parameters with its extra_params value, even when it is
one of the computed keys; every key extra_params does not mention keeps its
computed value. -/
theorem C4_extra_params_override (o : OrderRequest)
    (hnd : (dictKeys o.extra_params).Nodup) :
    (∀ k v, dictGet? o.extra_params k = some v →
      dictGet? o.to_request_params k = some v) ∧
    (∀ k, (∀ p ∈ o.extra_params, p.1 ≠ k) →
      dictGet? o.to_request_params k = dictGet? o.base_params k) := by
  constructor
  · intro k v h
    exact dictGet?_update_of_get? o.base_params o.extra_params k v hnd h
  · intro k h
    exact dictGet?_update_not_mem o.base_params o.extra_params k h

/-- C4 witness: an extra_params entry overrides the computed type key while
the untouched symbol key keeps its computed value. -/
theorem C4_extra_params_override_witness :
    dictGet?
      (OrderRequest.to_request_params
        ⟨"BTCUSDT", "BUY", "MARKET", 1, none, "GTC", none, none,
          [("type", .str "TAKE_PROFIT")]⟩) "type" = some (.str "TAKE_PROFIT") ∧
    dictGet?
      (OrderRequest.to_request_params
        ⟨"BTCUSDT", "BUY", "MARKET", 1, none, "GTC", none, none,
          [("type", .str "TAKE_PROFIT")]⟩) "symbol" = some (.str "BTCUSDT") :=
  ⟨(C4_extra_params_override _ (by decide)).1 "type" _ (by decide),
   ((C4_extra_params_override
      ⟨"BTCUSDT", "BUY", "MARKET", 1, none, "GTC", none, none,
        [("type", .str "TAKE_PROFIT")]⟩ (by decide)).2 "symbol" (by decide)).trans
     (by decide)⟩

/-- C5: a successfully parsed CLI invocation with type LIMIT and no price
makes main return exit code 2 with no futures_create_order call issued,
whatever the exchange client would have answered. -/
theorem C5_limit_without_price_exits_2 (a : Args) (client : Dict → Except Exc Dict)
    (ht : a.order_type = .LIMIT) (hp : a.price = none) :
    run_main a client = (2, []) := by
  obtain ⟨sym, sd, ot, q, pr, sp, tf, ro⟩ := a
  simp only at ht hp
  subst ht; subst hp
  rfl

/-- C5 witness: the theorem instantiated at a concrete invocation and a
client that would have accepted the order. -/
theorem C5_limit_without_price_exits_2_witness :
    run_main ⟨"BTCUSDT", "BUY", .LIMIT, 1, none, none, "GTC", false⟩
      (fun _ => Except.ok []) = (2, []) :=
  C5_limit_without_price_exits_2 _ _ rfl rfl

/-- C6 counterexample: an extra_params entry for symbol replaces the
uppercased symbol in the wire parameters, so the invariant fails once
extra_params contents are quantified. -/
theorem C6_extra_symbol_counterexample :
    dictGet?
      (OrderRequest.to_request_params
        ⟨"btcusdt", "buy", "MARKET", 1, none, "GTC", none, none,
          [("symbol", .str "weird")]⟩) "symbol" ≠
      some (.str (strUpper (OrderRequest.symbol
        ⟨"btcusdt", "buy", "MARKET", 1, none, "GTC", none, none,
          [("symbol", .str "weird")]⟩))) := by
  decide

/-- C6 (amended): provided extra_params does not itself carry the key in
question, the wire parameters map symbol and side to the uppercased fields,
and omit price and stopPrice entirely whenever the corresponding field is
unset. -/
theorem C6_uppercase_and_omission_amended (o : OrderRequest) :
    ((∀ p ∈ o.extra_params, p.1 ≠ "symbol") →
      dictGet? o.to_request_params "symbol" = some (.str (strUpper o.symbol))) ∧
    ((∀ p ∈ o.extra_params, p.1 ≠ "side") →
      dictGet? o.to_request_params "side" = some (.str (strUpper o.side))) ∧
    (o.price = none → (∀ p ∈ o.extra_params, p.1 ≠ "price") →
      dictContains o.to_request_params "price" = false) ∧
    (o.stop_price = none → (∀ p ∈ o.extra_params, p.1 ≠ "stopPrice") →
      dictContains o.to_request_params "stopPrice" = false) := by
  refine ⟨fun h => ?_, fun h => ?_, fun hn h => ?_, fun hn h => ?_⟩
  · rw [OrderRequest.to_request_params, dictGet?_update_not_mem _ _ _ h]
    exact base_params_get_symbol o
  · rw [OrderRequest.to_request_params, dictGet?_update_not_mem _ _ _ h]
    exact base_params_get_side o
  · have h1 := dictGet?_update_not_mem o.base_params o.extra_params "price" h
    simp only [dictContains, OrderRequest.to_request_params, h1, base_params_get_price, hn]
    simp
  · have h1 := dictGet?_update_not_mem o.base_params o.extra_params "stopPrice" h
    simp only [dictContains, OrderRequest.to_request_params, h1, base_params_get_stop, hn]
    simp

/-- C6 witness: the theorem instantiated at a lowercase MARKET request with
no price, no stop price and empty extra_params. -/
theorem C6_uppercase_and_omission_amended_witness :
    dictGet?
      (OrderRequest.to_request_params
        ⟨"btcusdt", "buy", "MARKET", 1, none, "GTC", none, none, []⟩)
      "symbol" = some (.str "BTCUSDT") ∧
    dictGet?
      (OrderRequest.to_request_params
        ⟨"btcusdt", "buy", "MARKET", 1, none, "GTC", none, none, []⟩)
      "side" = some (.str "BUY") ∧
    dictContains
      (OrderRequest.to_request_params
        ⟨"btcusdt", "buy", "MARKET", 1, none, "GTC", none, none, []⟩)
      "price" = false ∧
    dictContains
      (OrderRequest.to_request_params
        ⟨"btcusdt", "buy", "MARKET", 1, none, "GTC", none, none, []⟩)
      "stopPrice" = false :=
  ⟨(C6_uppercase_and_omission_amended _).1 (by decide),
   (C6_uppercase_and_omission_amended _).2.1 (by decide),
   (C6_uppercase_and_omission_amended _).2.2.1 rfl (by decide),
   (C6_uppercase_and_omission_amended _).2.2.2 rfl (by decide)⟩

/-- C7: once execute_order is reached, main returns 0 when the client call
answers, 1 when it raises a Binance API or order exception, 2 when the
cross-field validation raises ValueError (with no call issued), and 3 when
the client raises any other exception; in every case main returns an exit
code, no exception escaping. -/
theorem C7_exit_codes (a : Args) (client : Dict → Except Exc Dict) :
    (∀ m, execute_order a = .valueError m → run_main a client = (2, [])) ∧
    (∀ r, execute_order a = .placed r →
      (∀ resp, client r.to_request_params = .ok resp →
        run_main a client = (0, [r.to_request_params])) ∧
      (∀ m, client r.to_request_params = .error (.binanceAPI m) →
        run_main a client = (1, [r.to_request_params])) ∧
      (∀ m, client r.to_request_params = .error (.binanceOrder m) →
        run_main a client = (1, [r.to_request_params])) ∧
      (∀ m, client r.to_request_params = .error (.other m) →
        run_main a client = (3, [r.to_request_params]))) := by
  constructor
  · intro m h
    simp [run_main, h]
  · intro r h
    refine ⟨?_, ?_, ?_, ?_⟩ <;> intro x hx <;> simp [run_main, h, hx]

/-- C7 witness: one concrete invocation per exit code. -/
theorem C7_exit_codes_witness :
    run_main ⟨"BTCUSDT", "BUY", .MARKET, 1, none, none, "GTC", false⟩
      (fun _ => Except.ok []) =
      (0, [[("symbol", .str "BTCUSDT"), ("side", .str "BUY"),
            ("type", .str "MARKET"), ("quantity", .num 1)]]) ∧
    run_main ⟨"BTCUSDT", "BUY", .MARKET, 1, none, none, "GTC", false⟩
      (fun _ => Except.error (.binanceAPI "rejected")) =
      (1, [[("symbol", .str "BTCUSDT"), ("side", .str "BUY"),
            ("type", .str "MARKET"), ("quantity", .num 1)]]) ∧
    run_main ⟨"BTCUSDT", "BUY", .MARKET, 1, none, none, "GTC", false⟩
      (fun _ => Except.error (.binanceOrder "bad order")) =
      (1, [[("symbol", .str "BTCUSDT"), ("side", .str "BUY"),
            ("type", .str "MARKET"), ("quantity", .num 1)]]) ∧
    run_main ⟨"BTCUSDT", "BUY", .MARKET, 1, none, none, "GTC", false⟩
      (fun _ => Except.error (.other "connection reset")) =
      (3, [[("symbol", .str "BTCUSDT"), ("side", .str "BUY"),
            ("type", .str "MARKET"), ("quantity", .num 1)]]) ∧
    run_main ⟨"BTCUSDT", "BUY", .STOP_LIMIT, 1, some 100, none, "GTC", false⟩
      (fun _ => Except.ok []) = (2, []) :=
  ⟨((C7_exit_codes ⟨"BTCUSDT", "BUY", .MARKET, 1, none, none, "GTC", false⟩ _).2
      ⟨"BTCUSDT", "BUY", "MARKET", 1, none, "GTC", none, none, []⟩ rfl).1 [] rfl,
   ((C7_exit_codes ⟨"BTCUSDT", "BUY", .MARKET, 1, none, none, "GTC", false⟩ _).2
      ⟨"BTCUSDT", "BUY", "MARKET", 1, none, "GTC", none, none, []⟩ rfl).2.1 "rejected" rfl,
   ((C7_exit_codes ⟨"BTCUSDT", "BUY", .MARKET, 1, none, none, "GTC", false⟩ _).2
      ⟨"BTCUSDT", "BUY", "MARKET", 1, none, "GTC", none, none, []⟩ rfl).2.2.1 "bad order" rfl,
   ((C7_exit_codes ⟨"BTCUSDT", "BUY", .MARKET, 1, none, none, "GTC", false⟩ _).2
      ⟨"BTCUSDT", "BUY", "MARKET", 1, none, "GTC", none, none, []⟩ rfl).2.2.2
     "connection reset" rfl,
   (C7_exit_codes ⟨"BTCUSDT", "BUY", .STOP_LIMIT, 1, some 100, none, "GTC", false⟩ _).1
     "--price and --stop-price are required for STOP_LIMIT orders" rfl⟩

/-- C8: the dict place_order logs is the request params with the signature
entry popped: the signature key is never present in the logged dict, and
every other key keeps the value it has in the request params. -/
theorem C8_logging_strips_signature (o : OrderRequest) :
    place_order_logged o = dictPop o.to_request_params "signature" ∧
    dictGet? (place_order_logged o) "signature" = none ∧
    (∀ k, k ≠ "signature" →
      dictGet? (place_order_logged o) k = dictGet? o.to_request_params k) := by
  refine ⟨rfl, ?_, fun k hk => ?_⟩
  · exact dictGet?_pop_self _ _ (nodup_dictKeys_wire o)
  · exact dictGet?_pop_ne _ hk

/-- C8 witness: a request whose extra_params smuggle a signature entry is
logged without it, and the symbol entry survives sanitization. -/
theorem C8_logging_strips_signature_witness :
    dictGet?
      (place_order_logged
        ⟨"BTCUSDT", "BUY", "MARKET", 1, none, "GTC", none, none,
          [("signature", .str "deadbeef")]⟩) "signature" = none ∧
    dictGet?
      (place_order_logged
        ⟨"BTCUSDT", "BUY", "MARKET", 1, none, "GTC", none, none,
          [("signature", .str "deadbeef")]⟩) "symbol" =
      dictGet?
        (OrderRequest.to_request_params
          ⟨"BTCUSDT", "BUY", "MARKET", 1, none, "GTC", none, none,
            [("signature", .str "deadbeef")]⟩) "symbol" :=
  ⟨(C8_logging_strips_signature _).2.1,
   (C8_logging_strips_signature _).2.2 "symbol" (by decide)⟩

/-- C9: with the Python-level mutation made explicit, _sanitize_for_logging
hands back its argument untouched while the returned dict agrees with the
argument on every key except signature, and to_request_params hands back the
OrderRequest it was called on untouched. -/
theorem C9_no_mutation (params : Dict) (o : OrderRequest) :
    (sanitize_for_logging_st params).1 = params ∧
    (∀ k, k ≠ "signature" →
      dictGet? (sanitize_for_logging_st params).2 k = dictGet? params k) ∧
    (to_request_params_st o).1 = o := by
  refine ⟨rfl, fun k hk => ?_, rfl⟩
  exact dictGet?_pop_ne _ hk

/-- C9 witness: the theorem instantiated at a dict holding a signature
entry and at a MARKET OrderRequest. -/
theorem C9_no_mutation_witness :
    (sanitize_for_logging_st
        [("signature", .str "deadbeef"), ("symbol", .str "BTCUSDT")]).1 =
      [("signature", .str "deadbeef"), ("symbol", .str "BTCUSDT")] ∧
    dictGet?
      (sanitize_for_logging_st
        [("signature", .str "deadbeef"), ("symbol", .str "BTCUSDT")]).2
      "symbol" =
      dictGet? [("signature", .str "deadbeef"), ("symbol", .str "BTCUSDT")] "symbol" ∧
    (to_request_params_st ⟨"BTCUSDT", "BUY", "MARKET", 1, none, "GTC", none, none, []⟩).1 =
      ⟨"BTCUSDT", "BUY", "MARKET", 1, none, "GTC", none, none, []⟩ :=
  ⟨(C9_no_mutation [("signature", .str "deadbeef"), ("symbol", .str "BTCUSDT")]
      ⟨"BTCUSDT", "BUY", "MARKET", 1, none, "GTC", none, none, []⟩).1,
   (C9_no_mutation [("signature", .str "deadbeef"), ("symbol", .str "BTCUSDT")]
      ⟨"BTCUSDT", "BUY", "MARKET", 1, none, "GTC", none, none, []⟩).2.1
     "symbol" (by decide),
   (C9_no_mutation [("signature", .str "deadbeef"), ("symbol", .str "BTCUSDT")]
      ⟨"BTCUSDT", "BUY", "MARKET", 1, none, "GTC", none, none, []⟩).2.2⟩

/-- C10: a CLI invocation with type MARKET ignores any parsed price or stop
price: the dispatched order's wire parameters contain neither price nor
stopPrice, and a reduceOnly entry, when present at all, is the boolean
true (the flag can never produce explicit false). -/
theorem C10_market_ignores_price_flags (a : Args) (ht : a.order_type = .MARKET) :
    ∃ r, execute_order a = .placed r ∧
      dictContains r.to_request_params "price" = false ∧
      dictContains r.to_request_params "stopPrice" = false ∧
      (∀ b, dictGet? r.to_request_params "reduceOnly" = some (.bool b) → b = true) := by
  obtain ⟨sym, sd, ot, q, pr, sp, tf, ro⟩ := a
  simp only at ht
  subst ht
  refine ⟨_, rfl, ?_, ?_, ?_⟩
  · cases ro <;> rfl
  · cases ro <;> rfl
  · cases ro
    · intro b hb
      rw [show dictGet? (OrderRequest.to_request_params
            (place_market_order_request sym sd q
              (if false then some true else none) none)) "reduceOnly" = none from rfl] at hb
      exact absurd hb (by simp)
    · intro b hb
      rw [show dictGet? (OrderRequest.to_request_params
            (place_market_order_request sym sd q
              (if true then some true else none) none)) "reduceOnly" =
          some (.bool true) from rfl] at hb
      simpa using hb.symm

/-- C10 witness: the theorem instantiated at a MARKET invocation that
supplies both a price and a stop price and sets the reduce-only flag. -/
theorem C10_market_ignores_price_flags_witness :
    ∃ r, execute_order ⟨"BTCUSDT", "BUY", .MARKET, 1, some 100, some 95, "GTC", true⟩
        = .placed r ∧
      dictContains r.to_request_params "price" = false ∧
      dictContains r.to_request_params "stopPrice" = false ∧
      (∀ b, dictGet? r.to_request_params "reduceOnly" = some (.bool b) → b = true) :=
  C10_market_ignores_price_flags
    ⟨"BTCUSDT", "BUY", .MARKET, 1, some 100, some 95, "GTC", true⟩ rfl

end BinanceBot
